import Mathlib

/-
Shallow embedding of the real-time game-session client connector of
`src/app/hooks/useGameWebSocket.ts` (the session-aware variant that the
specification follows).

The hook keeps four user-visible projections: `chatHistory` (a list of
chat entries), `gameState` and `playerState` (JavaScript objects updated
by spread-merge `{...prev, ...incoming}`), and `lastError` (the Pending
Error slot).  Inbound frames are dispatched by `ws.onmessage`; outbound
player actions go through `sendAction`, gated by the input-lock flag and
the socket ready state; abnormal closures schedule exponential-backoff
reconnects in `ws.onclose`.

JavaScript objects are modelled as association lists of string keys and
a small JSON value type; spread-merge keeps the previous entries whose
keys the update does not mention.  JavaScript truthiness (the hook tests
`gameState.is_player_input_locked` and uses `x || d` defaults) is
modelled explicitly.
-/

namespace MudClient

/-- A JSON-ish value stored in a game-state / player-state object field. -/
inductive JVal where
  | str (s : String)
  | num (n : Int)
  | boolv (b : Bool)
  | nullv
deriving DecidableEq, Repr

/-- A JavaScript object, as the hook uses them: string keys to values. -/
abbrev Obj := List (String × JVal)

/-- Field lookup in an object (first binding of the key wins). -/
def lookupField (o : Obj) (k : String) : Option JVal :=
  match o with
  | [] => none
  | (k', v) :: rest => if k' = k then some v else lookupField rest k

/-- First-some choice on optional values, used to state spread-merge lookups. -/
def optOr (a b : Option JVal) : Option JVal :=
  match a with
  | some v => some v
  | none => b

/-- JavaScript spread-merge `\x7b...prev, ...upd\x7d`: fields of `upd` win,
fields of `prev` survive exactly when `upd` does not bind their key. -/
def mergeObj (prev upd : Obj) : Obj :=
  upd ++ prev.filter (fun p => (lookupField upd p.1).isNone)

/-- JavaScript `x || d` on an optional string: `undefined` and the empty
string (the only falsy string) fall back to the default. -/
def jsOrElse (v : Option String) (d : String) : String :=
  match v with
  | none => d
  | some s => if s = "" then d else s

/-- JavaScript truthiness of an optional field value, as tested by
`if (gameState.is_player_input_locked)`: an absent field is falsy. -/
def truthy : Option JVal → Bool
  | none => false
  | some (.boolv b) => b
  | some .nullv => false
  | some (.str s) => s != ""
  | some (.num n) => n != 0

/-- One Chat History entry, per `ChatMessage` in `src/app/types/game.ts`
plus the `typing` field that streaming coalescing attaches at runtime. -/
structure ChatMessage where
  id : String
  speaker : String
  content : String
  timestamp : String
  typing : Option Bool := none
deriving DecidableEq, Repr

/-- Payload of a `streaming_message` frame: `data.narration.id`,
`data.narration.content`, `data.narration.typing`, and the optional
top-level `data.speaker` and `data.timestamp`. -/
structure StreamData where
  id : String
  content : String
  typing : Option Bool
  speaker : Option String
  timestamp : Option String
deriving DecidableEq, Repr

/-- A decoded inbound frame, one constructor per recognized `message.type`
of the `ws.onmessage` switch; `unknown` covers every other type string. -/
inductive Frame where
  | connectionConfirmed
  | initialState (game_state player_state : Obj) (chat_history : List ChatMessage)
  | lockPlayerInput (is_locked : Bool)
  | chatMessage (data : ChatMessage)
  | sessionStateUpdate (game_state player_state : Obj)
  | actionResult (narration : ChatMessage) (player_state : Obj)
  | streamingMessage (data : StreamData)
  | errorFrame (message : String)
  | pong
  | unknown (t : String)
deriving DecidableEq, Repr

/-- Whether a frame is an `initial_state` frame. -/
def Frame.isInitial : Frame → Bool
  | .initialState _ _ _ => true
  | _ => false

/-- The projections the hook exposes to the view.  `isConnected` mirrors
the `isConnected` state; `lastError` is the Pending Error slot. -/
structure HookState where
  chatHistory : List ChatMessage
  gameState : Obj
  playerState : Obj
  lastError : Option String
  isConnected : Bool
deriving DecidableEq, Repr

/-- The hook's initial projections: empty chat history, empty game and
player objects (`useState(\x7b\x7d as GameState)`), no error, not connected. -/
def initialHookState : HookState :=
  { chatHistory := [], gameState := [], playerState := [],
    lastError := none, isConnected := false }

/-- The streaming coalescer (`streaming_message` case of `ws.onmessage`):
`findIndex` on the narration id; on a hit the first matching entry is
rebuilt in place with the fragment's content, timestamp (defaulted to
`now` by `||`) and typing flag; on a miss a new entry is appended, its
speaker defaulted to `"narrator"`. -/
def coalesce (now : String) (d : StreamData) : List ChatMessage → List ChatMessage
  | [] => [{ id := d.id, speaker := jsOrElse d.speaker "narrator",
             content := d.content, timestamp := jsOrElse d.timestamp now,
             typing := d.typing }]
  | m :: rest =>
      if m.id = d.id then
        { id := m.id, speaker := m.speaker, content := d.content,
          timestamp := jsOrElse d.timestamp now, typing := d.typing } :: rest
      else
        m :: coalesce now d rest

/-- The message dispatcher: the effect of one decoded frame on the
projections, per the `switch (message.type)` of `ws.onmessage`.  `now`
stands for `new Date().toISOString()` at handling time. -/
def applyFrame (now : String) (s : HookState) : Frame → HookState
  | .connectionConfirmed => s
  | .initialState gs ps ch =>
      { s with gameState := mergeObj s.gameState gs,
               playerState := mergeObj s.playerState ps,
               chatHistory := ch }
  | .lockPlayerInput b =>
      { s with gameState :=
          mergeObj s.gameState [("is_player_input_locked", JVal.boolv b)] }
  | .chatMessage m => { s with chatHistory := s.chatHistory ++ [m] }
  | .sessionStateUpdate gs ps =>
      { s with gameState := mergeObj s.gameState gs,
               playerState := mergeObj s.playerState ps }
  | .actionResult narr ps =>
      { s with chatHistory := s.chatHistory ++ [narr],
               playerState := mergeObj s.playerState ps }
  | .streamingMessage d => { s with chatHistory := coalesce now d s.chatHistory }
  | .errorFrame msg => { s with lastError := some msg }
  | .pong => s
  | .unknown _ => s

/-- A raw inbound payload: either it decodes to a frame or `JSON.parse`
throws (malformed payload). -/
inductive Inbound where
  | malformed
  | frame (f : Frame)
deriving DecidableEq, Repr

/-- The whole `ws.onmessage` body as a total function: a malformed
payload is caught and only sets the Pending Error; a decoded frame is
dispatched.  Nothing here touches the socket or `isConnected`. -/
def handleMessage (now : String) (s : HookState) : Inbound → HookState
  | .malformed => { s with lastError := some "Failed to parse server message" }
  | .frame f => applyFrame now s f

/-- WebSocket ready states. -/
inductive ReadyState where
  | connecting
  | openState
  | closing
  | closedState
deriving DecidableEq, Repr

/-- The outbound `player_action` frame `sendAction` serializes. -/
structure OutboundFrame where
  type : String
  action : String
  timestamp : String
deriving DecidableEq, Repr

/-- What one `sendAction` call does: the frame put on the wire, if any,
and the Pending Error message it sets, if any. -/
structure SendResult where
  sent : Option OutboundFrame
  newError : Option String
deriving DecidableEq, Repr

/-- The Action Gate `sendAction`: first the JavaScript-truthy test on
`gameState.is_player_input_locked`, then the `wsRef.current?.readyState
=== WebSocket.OPEN` test (`ready = none` models a null socket ref). -/
def sendAction (lockVal : Option JVal) (ready : Option ReadyState)
    (action now : String) : SendResult :=
  if truthy lockVal then
    { sent := none, newError := some "Cannot send action: input is currently locked" }
  else if ready = some ReadyState.openState then
    { sent := some { type := "player_action", action := action, timestamp := now },
      newError := none }
  else
    { sent := none, newError := some "Cannot send action: not connected" }

/-- `MAX_RECONNECT_ATTEMPTS` in the hook. -/
def MAX_RECONNECT_ATTEMPTS : Nat := 5

/-- `RECONNECT_DELAY` (milliseconds) in the hook. -/
def RECONNECT_DELAY : Nat := 1000

/-- The observable effect of one `ws.onclose` invocation: the backoff
delay of the reconnect timer it schedules (if any), the Pending Error it
sets (if any), and whether it flips `isConnected` to false. -/
structure CloseEffect where
  scheduledDelay : Option Nat
  errorSet : Option String
  disconnected : Bool
deriving DecidableEq, Repr

/-- The `ws.onclose` handler: when unmounted it returns early; otherwise
it marks the view disconnected and, when the close code is abnormal and
attempts remain, schedules a retry after `RECONNECT_DELAY * 2 ^ attempts`.
It never writes the Pending Error slot. -/
def onCloseEffect (code : Nat) (attempts : Nat) (mounted : Bool) : CloseEffect :=
  if mounted = false then
    { scheduledDelay := none, errorSet := none, disconnected := false }
  else if code ≠ 1000 ∧ attempts < MAX_RECONNECT_ATTEMPTS then
    { scheduledDelay := some (RECONNECT_DELAY * 2 ^ attempts),
      errorSet := none, disconnected := true }
  else
    { scheduledDelay := none, errorSet := none, disconnected := true }

/-- Delays scheduled across up to `n` consecutive abnormal closures
(code 1006), starting from the given attempt counter; each fired retry
timer increments the counter once before reconnecting. -/
def abnormalDelays : Nat → Nat → List Nat
  | 0, _ => []
  | n + 1, attempts =>
      match (onCloseEffect 1006 attempts true).scheduledDelay with
      | none => []
      | some d => d :: abnormalDelays n (attempts + 1)

/-- The ids of a chat history, in order. -/
def idsOf (h : List ChatMessage) : List String := h.map (fun m => m.id)

/-- How many entries of a chat history carry the given id. -/
def countId (h : List ChatMessage) (i : String) : Nat :=
  h.countP (fun m => m.id == i)

/-- Fold a list of streaming fragments into a chat history, oldest first. -/
def applyStream (now : String) (frames : List StreamData)
    (h : List ChatMessage) : List ChatMessage :=
  frames.foldl (fun acc d => coalesce now d acc) h

/-! ### Concrete sample values used by counterexamples and witnesses -/

/-- A sample prior Game State carrying one field. -/
def sampleGameState : Obj := [("turn_counter", JVal.str "7")]

/-- A hook state holding `sampleGameState` and an empty chat history. -/
def statePre : HookState :=
  { chatHistory := [], gameState := sampleGameState, playerState := [],
    lastError := none, isConnected := true }

/-- A sample chat entry with id `"m1"`. -/
def sampleEntry : ChatMessage :=
  { id := "m1", speaker := "narrator", content := "hi", timestamp := "t0" }

/-- A hook state whose chat history holds exactly `sampleEntry`. -/
def stateWithChat : HookState :=
  { chatHistory := [sampleEntry], gameState := [], playerState := [],
    lastError := none, isConnected := true }

/-- An incoming chat entry that reuses the id `"m1"`. -/
def dupIncoming : ChatMessage :=
  { id := "m1", speaker := "bob", content := "again", timestamp := "t1" }

/-- A chat entry with an id different from `"m1"`. -/
def otherEntry : ChatMessage :=
  { id := "m0", speaker := "bob", content := "yo", timestamp := "t0" }

/-- A streaming fragment addressed to id `"m1"`, cumulative content
`"Hello!"`, no explicit speaker or timestamp. -/
def sampleStream : StreamData :=
  { id := "m1", content := "Hello!", typing := some false,
    speaker := none, timestamp := none }

/-- An earlier fragment for the same id, cumulative content `"Hel"`. -/
def streamFragA : StreamData :=
  { id := "m1", content := "Hel", typing := some true,
    speaker := none, timestamp := none }

/-! ### Basic lemmas on objects and the coalescer -/

theorem lookupField_append (a b : Obj) (k : String) :
    lookupField (a ++ b) k = optOr (lookupField a k) (lookupField b k) := by
  induction a with
  | nil => simp [lookupField, optOr]
  | cons p rest ih =>
      by_cases h : p.1 = k
      · simp [lookupField, h, optOr]
      · simp [lookupField, h, ih]

theorem lookupField_filterNone (prev upd : Obj) (k : String) :
    lookupField (prev.filter (fun p => (lookupField upd p.1).isNone)) k =
      if (lookupField upd k).isNone then lookupField prev k else none := by
  induction prev with
  | nil => simp [lookupField]
  | cons p rest ih =>
      by_cases hk : p.1 = k
      · by_cases hu : (lookupField upd k).isNone
        · simp [List.filter_cons, hk, hu, lookupField, ih]
        · simp [List.filter_cons, hk, hu, lookupField, ih]
      · by_cases hu : (lookupField upd p.1).isNone <;>
          simp [List.filter_cons, hu, lookupField, hk, ih]

theorem lookupField_merge (prev upd : Obj) (k : String) :
    lookupField (mergeObj prev upd) k =
      optOr (lookupField upd k) (lookupField prev k) := by
  unfold mergeObj
  rw [lookupField_append, lookupField_filterNone]
  cases h : lookupField upd k <;> simp [optOr, h]

theorem countId_nil (i : String) : countId [] i = 0 := rfl

theorem countId_eq_zero {h : List ChatMessage} {i : String} :
    countId h i = 0 ↔ i ∉ idsOf h := by
  simp [countId, idsOf, List.countP_eq_zero, List.mem_map]

theorem idsOf_coalesce_mem (now : String) (d : StreamData)
    (h : List ChatMessage) (hmem : d.id ∈ idsOf h) :
    idsOf (coalesce now d h) = idsOf h := by
  induction h with
  | nil => simp [idsOf] at hmem
  | cons m rest ih =>
      by_cases hm : m.id = d.id
      · simp [coalesce, hm, idsOf]
      · have : d.id ∈ idsOf rest := by
          simp [idsOf] at hmem ⊢
          rcases hmem with h1 | h2
          · exact absurd h1.symm hm
          · exact h2
        simp [coalesce, hm, idsOf, ih this]
        simpa [idsOf] using ih this

theorem idsOf_coalesce_not_mem (now : String) (d : StreamData)
    (h : List ChatMessage) (hmem : d.id ∉ idsOf h) :
    idsOf (coalesce now d h) = idsOf h ++ [d.id] := by
  induction h with
  | nil => simp [coalesce, idsOf]
  | cons m rest ih =>
      by_cases hm : m.id = d.id
      · exact absurd (by simp [idsOf, hm]) hmem
      · have : d.id ∉ idsOf rest := by
          intro hc
          exact hmem (by simp [idsOf] at hc ⊢; right; exact hc)
        simp [coalesce, hm, idsOf]
        simpa [idsOf] using ih this

theorem countId_coalesce (now : String) (d : StreamData) (h : List ChatMessage) :
    countId (coalesce now d h) d.id =
      if countId h d.id = 0 then 1 else countId h d.id := by
  induction h with
  | nil => simp [coalesce, countId]
  | cons m rest ih =>
      by_cases hm : m.id = d.id
      · simp [coalesce, hm, countId, List.countP_cons]
      · simp [coalesce, hm, countId, List.countP_cons] at ih ⊢
        exact ih

theorem find?_coalesce (now : String) (d : StreamData) (h : List ChatMessage) :
    ((coalesce now d h).find? (fun m => m.id == d.id)).map
        (fun m => m.content) = some d.content := by
  induction h with
  | nil => simp [coalesce, List.find?]
  | cons m rest ih =>
      by_cases hm : m.id = d.id
      · simp [coalesce, hm, List.find?]
      · simp [coalesce, hm, List.find?, ih]

theorem coalesce_update (now : String) (d : StreamData) (pre post : List ChatMessage)
    (e : ChatMessage) (he : e.id = d.id) (hpre : ∀ x ∈ pre, x.id ≠ d.id) :
    coalesce now d (pre ++ e :: post) =
      pre ++ { id := e.id, speaker := e.speaker, content := d.content,
               timestamp := jsOrElse d.timestamp now, typing := d.typing } :: post := by
  induction pre with
  | nil => simp [coalesce, he]
  | cons x rest ih =>
      have hx : x.id ≠ d.id := hpre x (by simp)
      simp [coalesce, hx]
      exact ih (fun y hy => hpre y (by simp [hy]))

theorem idsOf_length (h : List ChatMessage) : (idsOf h).length = h.length := by
  simp [idsOf]

theorem take_idsOf_self (h : List ChatMessage) :
    (idsOf h).take h.length = idsOf h := by
  rw [← idsOf_length h, List.take_length]

theorem take_idsOf_append (h : List ChatMessage) (extra : List String) :
    (idsOf h ++ extra).take h.length = idsOf h := by
  rw [← idsOf_length h]
  exact List.take_left _ _

theorem idsOf_append_one (h : List ChatMessage) (m : ChatMessage) :
    idsOf (h ++ [m]) = idsOf h ++ [m.id] := by
  simp [idsOf]

theorem mem_of_countId_one {h : List ChatMessage} {i : String}
    (hc : countId h i = 1) : i ∈ idsOf h := by
  by_contra hmem
  rw [← countId_eq_zero] at hmem
  omega

theorem applyStream_nil (now : String) (h : List ChatMessage) :
    applyStream now [] h = h := rfl

theorem applyStream_cons (now : String) (d : StreamData) (rest : List StreamData)
    (h : List ChatMessage) :
    applyStream now (d :: rest) h = applyStream now rest (coalesce now d h) := rfl

theorem applyStream_invariant (now : String) (i : String) :
    ∀ (frames : List StreamData) (h : List ChatMessage),
      countId h i = 1 → (∀ d ∈ frames, d.id = i) →
      countId (applyStream now frames h) i = 1 ∧
      idsOf (applyStream now frames h) = idsOf h ∧
      (∀ dl, frames.getLast? = some dl →
        ((applyStream now frames h).find? (fun m => m.id == i)).map
            (fun m => m.content) = some dl.content) := by
  intro frames
  induction frames with
  | nil =>
      intro h h1 _
      exact ⟨h1, rfl, fun dl hdl => by simp at hdl⟩
  | cons d rest ih =>
      intro h h1 hall
      have hd : d.id = i := hall d (by simp)
      have hmem : d.id ∈ idsOf h := hd ▸ mem_of_countId_one h1
      have h1s : countId (coalesce now d h) i = 1 := by
        have hc := countId_coalesce now d h
        rw [hd, h1] at hc
        simpa using hc
      have hids : idsOf (coalesce now d h) = idsOf h :=
        idsOf_coalesce_mem now d h hmem
      obtain ⟨cnt, ids2, lastc⟩ :=
        ih (coalesce now d h) h1s (fun d' hd' => hall d' (by simp [hd']))
      refine ⟨by simpa [applyStream_cons] using cnt,
              by simpa [applyStream_cons, hids] using ids2, ?_⟩
      intro dl hdl
      cases rest with
      | nil =>
          simp at hdl
          subst hdl
          have := find?_coalesce now d h
          rw [hd] at this
          simpa [applyStream_cons, applyStream_nil] using this
      | cons r rs =>
          rw [List.getLast?_cons_cons] at hdl
          simpa [applyStream_cons] using lastc dl hdl

/-! ### Claim theorems -/

/-- C1: `sendAction` transmits an outbound `player_action` frame iff the
input-lock flag of Game State is falsy and the socket is in the Open
state; in every other case it sends nothing and sets Pending Error, the
lock being checked first and the connection second. -/
theorem sendAction_gate (lockVal : Option JVal) (ready : Option ReadyState)
    (action now : String) :
    ((sendAction lockVal ready action now).sent.isSome = true ↔
       (truthy lockVal = false ∧ ready = some ReadyState.openState)) ∧
    (truthy lockVal = true →
       sendAction lockVal ready action now =
         { sent := none,
           newError := some "Cannot send action: input is currently locked" }) ∧
    (truthy lockVal = false → ready ≠ some ReadyState.openState →
       sendAction lockVal ready action now =
         { sent := none, newError := some "Cannot send action: not connected" }) ∧
    (truthy lockVal = false → ready = some ReadyState.openState →
       sendAction lockVal ready action now =
         { sent := some { type := "player_action", action := action, timestamp := now },
           newError := none }) := by
  unfold sendAction
  by_cases hl : truthy lockVal = true
  · simp [hl]
  · by_cases hr : ready = some ReadyState.openState <;> simp [hl, hr]

/-- C1 witness: a concrete unlocked-and-open call transmits, and a
concrete locked call is rejected with the lock message. -/
theorem sendAction_gate_witness :
    (sendAction none (some ReadyState.openState) "look" "t").sent.isSome = true ∧
    sendAction (some (JVal.boolv true)) (some ReadyState.openState) "look" "t" =
      { sent := none,
        newError := some "Cannot send action: input is currently locked" } :=
  ⟨(sendAction_gate none (some ReadyState.openState) "look" "t").1.mpr ⟨rfl, rfl⟩,
   (sendAction_gate (some (JVal.boolv true)) (some ReadyState.openState) "look" "t").2.1 rfl⟩

/-- C9: the hook starts with Game State as the empty object, so the
input-lock field is absent, and `sendAction` treats an absent lock value
as unlocked: the outcome is decided solely by the connection-open check. -/
theorem initial_state_unlocked :
    initialHookState.gameState = [] ∧
    lookupField initialHookState.gameState "is_player_input_locked" = none ∧
    (∀ (lockVal : Option JVal) (ready : Option ReadyState) (action now : String),
       lockVal = none →
       ((sendAction lockVal ready action now).sent.isSome = true ↔
          ready = some ReadyState.openState)) := by
  refine ⟨rfl, rfl, ?_⟩
  intro lockVal ready action now h
  subst h
  unfold sendAction
  by_cases hr : ready = some ReadyState.openState <;> simp [truthy, hr]

/-- C9 witness: with no lock field and an open socket, the concrete call
transmits. -/
theorem initial_state_unlocked_witness :
    (sendAction none (some ReadyState.openState) "go" "t").sent.isSome = true :=
  (initial_state_unlocked.2.2 none (some ReadyState.openState) "go" "t" rfl).mpr rfl

/-- C5: after an abnormal closure while mounted, the scheduled delay for
attempt counter `a < 5` is exactly `1000 * 2 ^ a`; six consecutive
abnormal closures starting from counter 0 schedule exactly the five
delays 1000, 2000, 4000, 8000, 16000; and once the counter reaches 5 no
further automatic attempt is scheduled. -/
theorem backoff_schedule :
    (∀ code attempt : Nat, code ≠ 1000 → attempt < 5 →
       (onCloseEffect code attempt true).scheduledDelay =
         some (1000 * 2 ^ attempt)) ∧
    abnormalDelays 6 0 = [1000, 2000, 4000, 8000, 16000] ∧
    (∀ code : Nat, code ≠ 1000 →
       (onCloseEffect code 5 true).scheduledDelay = none) := by
  refine ⟨?_, by decide, ?_⟩
  · intro code attempt hc ha
    simp [onCloseEffect, MAX_RECONNECT_ATTEMPTS, RECONNECT_DELAY, hc, ha]
  · intro code hc
    simp [onCloseEffect, MAX_RECONNECT_ATTEMPTS, hc]

/-- C5 witness: the concrete delay at attempt 3 is 8000 ms, and at
counter 5 nothing is scheduled. -/
theorem backoff_schedule_witness :
    (onCloseEffect 1006 3 true).scheduledDelay = some (1000 * 2 ^ 3) ∧
    (onCloseEffect 1006 5 true).scheduledDelay = none :=
  ⟨backoff_schedule.1 1006 3 (by decide) (by decide),
   backoff_schedule.2.2 1006 (by decide)⟩

/-- C6 counterexample: at the attempt ceiling an abnormal closure
schedules no retry, but it also sets no Pending Error at all — the close
handler never writes the error slot, so no terminal message inviting
manual reconnect is surfaced. -/
theorem close_exhausted_counterexample :
    (onCloseEffect 1006 5 true).scheduledDelay = none ∧
    (onCloseEffect 1006 5 true).errorSet = none := by
  exact ⟨by decide, by decide⟩

/-- C6 (amended): when the reconnect-attempt counter has reached the
maximum, an abnormal closure while mounted schedules no further retry
and leaves the Pending Error slot untouched (no terminal message). -/
theorem close_exhausted_no_retry (code attempts : Nat) (mounted : Bool)
    (hc : code ≠ 1000) (ha : MAX_RECONNECT_ATTEMPTS ≤ attempts)
    (hm : mounted = true) :
    onCloseEffect code attempts mounted =
      { scheduledDelay := none, errorSet := none, disconnected := true } := by
  subst hm
  have hlt : ¬ attempts < MAX_RECONNECT_ATTEMPTS := not_lt.mpr ha
  simp [onCloseEffect, hc, hlt]

/-- C6 witness: the concrete exhausted closure at counter 7 neither
retries nor sets an error. -/
theorem close_exhausted_no_retry_witness :
    onCloseEffect 1006 7 true =
      { scheduledDelay := none, errorSet := none, disconnected := true } :=
  close_exhausted_no_retry 1006 7 true (by decide) (by decide) rfl

/-- C7: the message handler is total over inbound payloads: a malformed
payload sets Pending Error to the generic parse-failure message and
changes no other projection (connection flag included), and a decoded
frame of unrecognized type changes nothing at all. -/
theorem handleMessage_total (now : String) (s : HookState) :
    (handleMessage now s Inbound.malformed =
       { s with lastError := some "Failed to parse server message" }) ∧
    (∀ t : String, handleMessage now s (Inbound.frame (Frame.unknown t)) = s) :=
  ⟨rfl, fun _ => rfl⟩

/-- C3 counterexample: applying `initial_state` with an empty
`game_state` payload leaves the prior `turn_counter` field in Game
State — prior fields survive, so the merge target is the previous
projection, not an empty one. -/
theorem initialState_counterexample :
    lookupField ((applyFrame "t0" statePre (Frame.initialState [] [] [])).gameState)
        "turn_counter" = some (JVal.str "7") := by
  rfl

/-- C3 (amended): `initial_state` shallow-merges the frame's
`game_state` and `player_state` into the PRIOR Game State and Player
State (a prior field survives exactly when the frame does not bind its
key) and replaces Chat History wholesale with the frame's ordered
list; the error slot is untouched. -/
theorem initialState_effect (now : String) (s : HookState)
    (gs ps : Obj) (ch : List ChatMessage) (k : String) :
    ((applyFrame now s (Frame.initialState gs ps ch)).chatHistory = ch) ∧
    (lookupField (applyFrame now s (Frame.initialState gs ps ch)).gameState k =
       optOr (lookupField gs k) (lookupField s.gameState k)) ∧
    (lookupField (applyFrame now s (Frame.initialState gs ps ch)).playerState k =
       optOr (lookupField ps k) (lookupField s.playerState k)) ∧
    ((applyFrame now s (Frame.initialState gs ps ch)).lastError = s.lastError) :=
  ⟨rfl, lookupField_merge s.gameState gs k, lookupField_merge s.playerState ps k, rfl⟩

/-- C2: starting from a Chat History obeying the uniqueness invariant
for the id (at most one entry carries it), applying N ≥ 1
`streaming_message` frames that all address that id yields exactly one
entry with the id, whose content equals the last frame's content;
existing entries are never reordered — the id sequence is either
unchanged (in-place update) or gets the id appended once at the end. -/
theorem streaming_convergence (now : String) (i : String)
    (frames : List StreamData) (h : List ChatMessage)
    (hne : frames ≠ []) (hall : ∀ d ∈ frames, d.id = i)
    (hinv : countId h i ≤ 1) :
    countId (applyStream now frames h) i = 1 ∧
    ((applyStream now frames h).find? (fun m => m.id == i)).map
        (fun m => m.content) = frames.getLast?.map (fun d => d.content) ∧
    (idsOf (applyStream now frames h) = idsOf h ∨
     idsOf (applyStream now frames h) = idsOf h ++ [i]) := by
  cases frames with
  | nil => exact absurd rfl hne
  | cons d rest =>
      have hd : d.id = i := hall d (by simp)
      have h1 : countId (coalesce now d h) i = 1 := by
        have hc := countId_coalesce now d h
        rw [hd] at hc
        rcases Nat.le_one_iff_eq_zero_or_eq_one.mp hinv with h0 | h0 <;>
          simpa [h0] using hc
      have hstep : idsOf (coalesce now d h) = idsOf h ∨
          idsOf (coalesce now d h) = idsOf h ++ [i] := by
        by_cases hmem : d.id ∈ idsOf h
        · exact Or.inl (idsOf_coalesce_mem now d h hmem)
        · exact Or.inr (hd ▸ idsOf_coalesce_not_mem now d h hmem)
      obtain ⟨cnt, ids2, lastc⟩ :=
        applyStream_invariant now i rest (coalesce now d h) h1
          (fun d' hd' => hall d' (by simp [hd']))
      refine ⟨by simpa [applyStream_cons] using cnt, ?_, ?_⟩
      · cases rest with
        | nil =>
            have hfc := find?_coalesce now d h
            rw [hd] at hfc
            simpa [applyStream_cons, applyStream_nil] using hfc
        | cons r rs =>
            obtain ⟨dl, hdl⟩ := Option.isSome_iff_exists.mp
              (List.getLast?_isSome.mpr (List.cons_ne_nil r rs))
            rw [List.getLast?_cons_cons, hdl]
            simpa [applyStream_cons] using lastc dl hdl
      · rw [applyStream_cons, ids2]
        exact hstep

/-- C2 witness: the spec's own scenario — two fragments for id `"m1"`
with contents `"Hel"` then `"Hello!"` applied to an empty history leave
exactly one `"m1"` entry whose content is `"Hello!"`. -/
theorem streaming_convergence_witness :
    countId (applyStream "tN" [streamFragA, sampleStream] []) "m1" = 1 ∧
    ((applyStream "tN" [streamFragA, sampleStream] []).find?
        (fun m => m.id == "m1")).map (fun m => m.content) =
      ([streamFragA, sampleStream].getLast?).map (fun d => d.content) ∧
    (idsOf (applyStream "tN" [streamFragA, sampleStream] []) = idsOf [] ∨
     idsOf (applyStream "tN" [streamFragA, sampleStream] []) = idsOf [] ++ ["m1"]) :=
  streaming_convergence "tN" "m1" [streamFragA, sampleStream] []
    (by decide) (by decide) (by decide)

/-- C4 counterexample: an `initial_state` frame carrying an empty
`chat_history` shrinks a one-entry Chat History to length zero — frame
application can remove entries. -/
theorem initialState_shrinks_history_counterexample :
    stateWithChat.chatHistory.length = 1 ∧
    ((applyFrame "t0" stateWithChat (Frame.initialState [] [] [])).chatHistory).length = 0 :=
  ⟨rfl, rfl⟩

/-- C4 (amended): every frame other than `initial_state` only preserves
or grows Chat History, and every existing entry keeps its id at its
position (no removal, no reorder; in-place updates only touch an
entry's contents); `initial_state` instead replaces the history
wholesale. -/
theorem history_monotone (now : String) (s : HookState) (f : Frame)
    (hf : f.isInitial = false) :
    s.chatHistory.length ≤ (applyFrame now s f).chatHistory.length ∧
    (idsOf (applyFrame now s f).chatHistory).take s.chatHistory.length =
      idsOf s.chatHistory := by
  cases f with
  | initialState gs ps ch => simp [Frame.isInitial] at hf
  | chatMessage m =>
      refine ⟨by simp [applyFrame], ?_⟩
      show (idsOf (s.chatHistory ++ [m])).take s.chatHistory.length = idsOf s.chatHistory
      rw [idsOf_append_one]
      exact take_idsOf_append s.chatHistory [m.id]
  | actionResult narr ps =>
      refine ⟨by simp [applyFrame], ?_⟩
      show (idsOf (s.chatHistory ++ [narr])).take s.chatHistory.length = idsOf s.chatHistory
      rw [idsOf_append_one]
      exact take_idsOf_append s.chatHistory [narr.id]
  | streamingMessage d =>
      by_cases hmem : d.id ∈ idsOf s.chatHistory
      · have hids := idsOf_coalesce_mem now d s.chatHistory hmem
        have hlen : (coalesce now d s.chatHistory).length = s.chatHistory.length := by
          have := congrArg List.length hids
          simpa [idsOf_length] using this
        refine ⟨le_of_eq hlen.symm, ?_⟩
        show (idsOf (coalesce now d s.chatHistory)).take s.chatHistory.length =
          idsOf s.chatHistory
        rw [hids]
        exact take_idsOf_self s.chatHistory
      · have hids := idsOf_coalesce_not_mem now d s.chatHistory hmem
        have hlen : (coalesce now d s.chatHistory).length = s.chatHistory.length + 1 := by
          have := congrArg List.length hids
          simpa [idsOf_length] using this
        refine ⟨?_, ?_⟩
        · show s.chatHistory.length ≤ (coalesce now d s.chatHistory).length
          omega
        show (idsOf (coalesce now d s.chatHistory)).take s.chatHistory.length =
          idsOf s.chatHistory
        rw [hids]
        exact take_idsOf_append s.chatHistory [d.id]
  | connectionConfirmed => exact ⟨le_refl _, take_idsOf_self s.chatHistory⟩
  | lockPlayerInput b => exact ⟨le_refl _, take_idsOf_self s.chatHistory⟩
  | sessionStateUpdate gs ps => exact ⟨le_refl _, take_idsOf_self s.chatHistory⟩
  | errorFrame msg => exact ⟨le_refl _, take_idsOf_self s.chatHistory⟩
  | pong => exact ⟨le_refl _, take_idsOf_self s.chatHistory⟩
  | unknown t => exact ⟨le_refl _, take_idsOf_self s.chatHistory⟩

/-- C4 witness: a concrete `chat_message` append grows the history and
keeps the existing id in place. -/
theorem history_monotone_witness :
    stateWithChat.chatHistory.length ≤
      (applyFrame "t0" stateWithChat (Frame.chatMessage dupIncoming)).chatHistory.length ∧
    (idsOf (applyFrame "t0" stateWithChat
        (Frame.chatMessage dupIncoming)).chatHistory).take
      stateWithChat.chatHistory.length = idsOf stateWithChat.chatHistory :=
  history_monotone "t0" stateWithChat (Frame.chatMessage dupIncoming) rfl

/-- C8 counterexample: a `chat_message` frame reusing an existing id is
appended unconditionally, leaving two entries with id `"m1"` — the
dispatcher does not maintain id uniqueness against such frames. -/
theorem chat_duplicate_id_counterexample :
    countId ((applyFrame "t0" stateWithChat
        (Frame.chatMessage dupIncoming)).chatHistory) "m1" = 2 := by
  decide

/-- C8 (amended): `streaming_message` coalescing preserves uniqueness of
Chat History ids — a streaming update never creates a duplicate id; the
blind appends of `chat_message` and `action_result` preserve uniqueness
exactly when the frame's id is not already present; and after
`initial_state` the ids are exactly the frame's own list's ids. -/
theorem unique_ids_preservation :
    (∀ (now : String) (s : HookState) (d : StreamData),
       (idsOf s.chatHistory).Nodup →
       (idsOf (applyFrame now s (Frame.streamingMessage d)).chatHistory).Nodup) ∧
    (∀ (now : String) (s : HookState) (m : ChatMessage),
       (idsOf s.chatHistory).Nodup → m.id ∉ idsOf s.chatHistory →
       (idsOf (applyFrame now s (Frame.chatMessage m)).chatHistory).Nodup) ∧
    (∀ (now : String) (s : HookState) (narr : ChatMessage) (ps : Obj),
       (idsOf s.chatHistory).Nodup → narr.id ∉ idsOf s.chatHistory →
       (idsOf (applyFrame now s (Frame.actionResult narr ps)).chatHistory).Nodup) ∧
    (∀ (now : String) (s : HookState) (gs ps : Obj) (ch : List ChatMessage),
       idsOf (applyFrame now s (Frame.initialState gs ps ch)).chatHistory = idsOf ch) := by
  refine ⟨?_, ?_, ?_, fun now s gs ps ch => rfl⟩
  · intro now s d hnd
    by_cases hmem : d.id ∈ idsOf s.chatHistory
    · have hids := idsOf_coalesce_mem now d s.chatHistory hmem
      show (idsOf (coalesce now d s.chatHistory)).Nodup
      rw [hids]; exact hnd
    · have hids := idsOf_coalesce_not_mem now d s.chatHistory hmem
      show (idsOf (coalesce now d s.chatHistory)).Nodup
      rw [hids]
      simp [List.nodup_append, hnd, hmem]
  · intro now s m hnd hfresh
    show (idsOf (s.chatHistory ++ [m])).Nodup
    rw [idsOf_append_one]
    simp [List.nodup_append, hnd, hfresh]
  · intro now s narr ps hnd hfresh
    show (idsOf (s.chatHistory ++ [narr])).Nodup
    rw [idsOf_append_one]
    simp [List.nodup_append, hnd, hfresh]

/-- C8 witness: a concrete streaming update to the existing `"m1"` entry
keeps the id list duplicate-free. -/
theorem unique_ids_preservation_witness :
    (idsOf (applyFrame "tN" stateWithChat
        (Frame.streamingMessage sampleStream)).chatHistory).Nodup :=
  unique_ids_preservation.1 "tN" stateWithChat sampleStream (by decide)

/-- C10: when a streaming fragment's id matches an existing entry (the
first such entry), the update rebuilds only that entry's content,
timestamp and typing fields, preserving its id and speaker and leaving
every other entry and its position untouched; an absent fragment
timestamp defaults to the handling-time clock value. -/
theorem streaming_update_in_place (now : String) (d : StreamData)
    (pre post : List ChatMessage) (e : ChatMessage)
    (he : e.id = d.id) (hpre : ∀ x ∈ pre, x.id ≠ d.id) :
    (coalesce now d (pre ++ e :: post) =
      pre ++ { id := e.id, speaker := e.speaker, content := d.content,
               timestamp := jsOrElse d.timestamp now,
               typing := d.typing } :: post) ∧
    (d.timestamp = none → jsOrElse d.timestamp now = now) := by
  refine ⟨coalesce_update now d pre post e he hpre, ?_⟩
  intro ht
  simp [ht, jsOrElse]

/-- C10 witness: updating `"m1"` behind an unrelated `"m0"` entry rewrites
only the matching entry, with the timestamp defaulted to `"tN"`. -/
theorem streaming_update_in_place_witness :
    (coalesce "tN" sampleStream ([otherEntry] ++ sampleEntry :: []) =
      [otherEntry] ++
        { id := sampleEntry.id, speaker := sampleEntry.speaker,
          content := sampleStream.content,
          timestamp := jsOrElse sampleStream.timestamp "tN",
          typing := sampleStream.typing } :: []) ∧
    (sampleStream.timestamp = none → jsOrElse sampleStream.timestamp "tN" = "tN") :=
  streaming_update_in_place "tN" sampleStream [otherEntry] [] sampleEntry
    (by decide) (by decide)

end MudClient
